import Mathlib

/-
Verification development for the table interaction/state utility layer of
openui5 (src/sap.ui.table/src/sap/ui/table/TableUtils.js).

The JavaScript module is shallowly embedded: the Table widget state that the
utility functions read and mutate is an explicit record, DOM-derived inputs
(cell classification, measured pixel widths, device kind) are explicit fields
or arguments, and the cancelable notifications (ColumnResize, ColumnSelect,
CellContextmenu) are synchronous boolean-valued callbacks passed in as
functions, exactly as the source inspects their return value.

Collaborator code that is not part of the repository snapshot (Table.js,
Column.js, TableGrouping.js, TableColumnUtils.js, the SelectionModel and the
core ResizeHandler service) is modelled from the specification; every such
definition carries a doc comment saying so.
-/

namespace TableUtilsSpec

/-- Selection modes of sap.ui.table (library.js shortcut SelectionMode):
None, Single, MultiToggle and the deprecated Multi. -/
inductive SelectionMode where
  | None
  | Single
  | MultiToggle
  | Multi
  deriving DecidableEq

/-- Selection behaviors of sap.ui.table (library.js shortcut SelectionBehavior):
Row, RowOnly, RowSelector. -/
inductive SelectionBehavior where
  | Row
  | RowOnly
  | RowSelector
  deriving DecidableEq

/-- TableUtils.CELLTYPES: the known basic cell types in the table. -/
inductive CellType where
  | DATACELL
  | COLUMNHEADER
  | ROWHEADER
  | COLUMNROWHEADER
  deriving DecidableEq

/-- A column width as held in the Column "width" property. `px n` stands for a
fixed CSS pixel width (the table's _CSSSizeToPixel converts it to `n`); `flex`
stands for a non-fixed width: empty, "auto" or a percentage (exactly the
widths TableUtils.isVariableWidth accepts). -/
inductive ColWidth where
  | px (n : Nat)
  | flex
  deriving DecidableEq

/-- One member of the table's column aggregation. Fields mirror the Column
accessors used by TableUtils: getVisible, getResizable, getWidth, the measured
offsetWidth of the column's rendered th element (none if not rendered; used
both by getColumnWidth for flexible widths and by the querySelector lookup in
resizeColumn), the `_minWidth` pin written by resizeColumn, `_menuHasItems`,
whether the column's context menu is currently open, the column header cell
menu overlay (`some b` means the overlay exists and `b` says whether it holds
the `sapUiTableColDropDown` menu button), and isFilterableByMenu. -/
structure Column where
  visible : Bool
  resizable : Bool
  width : ColWidth
  domWidth : Option Nat
  minWidthPin : Option Nat
  menuHasItems : Bool
  menuOpen : Bool
  overlay : Option Bool
  filterable : Bool
  deriving DecidableEq

/-- The Table widget state read and mutated by TableUtils. `binding = some n`
models getBinding("rows") returning a binding of length `n` (the bound row
count `_getRowCount`); `none` models an unbound table. `selected` is the set
of selected absolute row indices (getSelectedIndices / add- and
removeSelectionInterval of the selection model). `selectableRowCount` is the
abstract `_getSelectableRowCount`. `sourceRowIndex` is `_iSourceRowIndex`.
`firstVisibleRow` is the first-visible-row cursor; theorems that rely on it
being sanitized (`_getSanitizedFirstVisibleRow`) state that as a hypothesis.
`minColWidth` models TableColumnUtils.getMinColumnWidth(), the global minimum
column width. `dataCellRendered` lists the (columnIndex, renderedRowIndex)
pairs whose data cell has a rendered DOM parent cell outside a grouping row
(the getParentDataCell / isInGroupingRow test of openDataCellContextMenu).
`cellMenuCreated`/`cellMenuOpenAt` model the singleton `_oCellContextMenu`
(whether it was constructed, and the cell it is currently open over).
`resizeHandlers` is `_mResizeHandlerIds`: an association list because the JS
map keeps keys whose value was set back to undefined. -/
structure Table where
  columns : List Column
  fixedColumnCount : Nat
  hasDomRef : Bool
  minColWidth : Nat
  selectionMode : SelectionMode
  selectionBehavior : SelectionBehavior
  groupMode : Bool
  binding : Option Nat
  selected : Finset Nat
  selectableRowCount : Nat
  sourceRowIndex : Option Int
  visibleRowCount : Nat
  fixedRowCount : Nat
  fixedBottomRowCount : Nat
  firstVisibleRow : Int
  enableCellFilter : Bool
  cellMenuCreated : Bool
  cellMenuOpenAt : Option (Nat × Nat)
  dataCellRendered : List (Nat × Nat)
  resizeHandlers : Option (List (String × Option Nat))
  deriving DecidableEq

/-- Modelled from the spec: the bound row count accessor `_getRowCount`
(Table.js is not part of the snapshot; §6 lists "bound row count" among the
Table accessors). Zero when no binding exists. -/
def getRowCount (t : Table) : Nat := t.binding.getD 0

/-- TableUtils.getNonEmptyVisibleRowCount: the number of visible rows that are
not empty, min of visible row count and data row count. -/
def getNonEmptyVisibleRowCount (t : Table) : Nat :=
  Nat.min t.visibleRowCount (getRowCount t)

/-- Modelled from the spec: the mutator "set first-visible-row" (§6,
Table.setFirstVisibleRow; Table.js is not part of the snapshot). Plain
assignment of the cursor; the spec attributes all clamping to the scroll
functions themselves (§4.3). -/
def setFirstVisibleRow (t : Table) (v : Int) : Table :=
  { t with firstVisibleRow := v }

/-- TableUtils.hasRowHeader: the table has a row header iff selection is
enabled with behavior other than RowOnly, or the table is in group mode
(TableGrouping.isGroupMode is the `groupMode` field; TableGrouping.js is not
part of the snapshot, the flag is modelled from the spec's "grouped display
mode"). -/
def hasRowHeader (t : Table) : Bool :=
  (t.selectionMode != SelectionMode.None
      && t.selectionBehavior != SelectionBehavior.RowOnly)
    || t.groupMode

/-- TableUtils.isRowSelectionAllowed: selection on the cells of a row (not the
row selector) is allowed. -/
def isRowSelectionAllowed (t : Table) : Bool :=
  t.selectionMode != SelectionMode.None
    && (t.selectionBehavior == SelectionBehavior.Row
        || t.selectionBehavior == SelectionBehavior.RowOnly)

/-- TableUtils.isRowSelectorSelectionAllowed: selection via the row selector
is allowed (incl. that RowOnly works like Row). -/
def isRowSelectorSelectionAllowed (t : Table) : Bool :=
  t.selectionMode != SelectionMode.None && hasRowHeader t

/-- TableUtils.areAllRowsSelected: false for a null table, otherwise the
selectable row count is positive and equals the number of selected indices
(getSelectedIndices().length is the cardinality of the selected set). -/
def areAllRowsSelected (t? : Option Table) : Bool :=
  match t? with
  | Option.none => false
  | Option.some t =>
    decide (0 < t.selectableRowCount)
      && decide (t.selectableRowCount = t.selected.card)

/-- Modelled from the spec: Table.isIndexSelected (Table.js / the selection
model is not part of the snapshot): membership of the absolute row index in
the selected index set. A negative index is never selected. -/
def isIndexSelected (t : Table) (i : Int) : Bool :=
  decide (0 ≤ i) && decide (i.toNat ∈ t.selected)

/-- Inner function setSelectionState of TableUtils.toggleRowSelection.
`_iSourceRowIndex` is set first; on the forced-state mismatch paths the
function returns false with that marker still set (the source only deletes it
on the success paths). addSelectionInterval(i,i) / removeSelectionInterval(i,i)
are modelled from the spec (§6 "add/remove selection interval") as insertion
into / removal from the selected index set. -/
def setSelectionState (t : Table) (i : Int) (bSelect : Option Bool) : Bool × Table :=
  let t1 : Table := { t with sourceRowIndex := some i }
  if isIndexSelected t1 i then
    if bSelect = some true then (false, t1)
    else
      (true, { t1 with selected := t1.selected.erase i.toNat, sourceRowIndex := none })
  else
    if bSelect = some false then (false, t1)
    else
      (true, { t1 with selected := insert i.toNat t1.selected, sourceRowIndex := none })

/-- A DOM/cell row indicator as resolved by toggleRowSelection: the result of
getCellInfo on the cell (`cellType`, none when the node is not a recognised
table cell), whether the cell lies in a grouping row (isInGroupingRow), and
the absolute row index the rendered row resolves to
(getRows()[data-sap-ui-rowindex].getIndex()). -/
structure DomCell where
  cellType : Option CellType
  inGroupingRow : Bool
  rowIndex : Int
  deriving DecidableEq

/-- The oRowIndicator argument of toggleRowSelection: either an absolute row
index or a DOM/cell reference. -/
inductive RowIndicator where
  | num (i : Int)
  | dom (c : DomCell)
  deriving DecidableEq

/-- The selectability test toggleRowSelection applies to a DOM indicator: the
node classifies as a cell, is not in a grouping row, and is either a data cell
with row selection allowed or a row header with row selector selection
allowed. -/
def domCellSelectable (t : Table) (c : DomCell) : Bool :=
  c.cellType.isSome && !c.inGroupingRow
    && ((c.cellType == some CellType.DATACELL && isRowSelectionAllowed t)
        || (c.cellType == some CellType.ROWHEADER && isRowSelectorSelectionAllowed t))

/-- TableUtils.toggleRowSelection. The source's single guard
`oTable == null || getBinding("rows") == null || selectionMode === None ||
oRowIndicator == null → false` is rendered as the nested early returns below
(all produce `(false, unchanged)`). A numeric indicator is range-checked
against `_getRowCount`; a DOM indicator must pass `domCellSelectable`. The
function never throws: every invalid input yields `(false, unchanged)`. -/
def toggleRowSelection (t? : Option Table) (ind : Option RowIndicator)
    (bSelect : Option Bool) : Bool × Option Table :=
  match t? with
  | Option.none => (false, none)
  | Option.some t =>
    match ind with
    | Option.none => (false, some t)
    | Option.some ind' =>
      if t.binding = none ∨ t.selectionMode = SelectionMode.None then (false, some t)
      else
        match ind' with
        | RowIndicator.num i =>
          if i < 0 ∨ ((getRowCount t : Int) ≤ i) then (false, some t)
          else ((setSelectionState t i bSelect).1, some (setSelectionState t i bSelect).2)
        | RowIndicator.dom c =>
          if domCellSelectable t c then
            ((setSelectionState t c.rowIndex bSelect).1,
              some (setSelectionState t c.rowIndex bSelect).2)
          else (false, some t)

/-- TableUtils.scroll: advance or retreat the first-visible-row cursor by one
step or by the scrollable page size (visibleRowCount minus the fixed top and
bottom row counts), clamped with min/max exactly as in the source. The cursor
read is `_getSanitizedFirstVisibleRow`; theorems assume the stored cursor is
sanitized. Returns whether scrolling was performed, together with the new
state. -/
def scroll (t : Table) (bDown bPage : Bool) : Bool × Table :=
  let iRowCount : Int := getRowCount t
  let iVisibleRowCount : Int := t.visibleRowCount
  let iScrollableRowCount : Int :=
    iVisibleRowCount - t.fixedRowCount - t.fixedBottomRowCount
  let iFirst : Int := t.firstVisibleRow
  let iSize : Int := if bPage then iScrollableRowCount else 1
  if bDown then
    if iFirst + iVisibleRowCount < iRowCount then
      (true, setFirstVisibleRow t (min (iFirst + iSize) (iRowCount - iVisibleRowCount)))
    else (false, t)
  else
    if iFirst > 0 then (true, setFirstVisibleRow t (max (iFirst - iSize) 0))
    else (false, t)

/-- TableUtils.scrollMax: scroll to the end (cursor to
rowCount - nonEmptyVisibleRowCount, if below it) or to the beginning (cursor
to 0, if above it). Returns whether scrolling was performed. -/
def scrollMax (t : Table) (bDown : Bool) : Bool × Table :=
  let iFirst : Int := t.firstVisibleRow
  if bDown then
    let iTarget : Int := (getRowCount t : Int) - getNonEmptyVisibleRowCount t
    if iFirst < iTarget then (true, setFirstVisibleRow t iTarget) else (false, t)
  else
    if iFirst > 0 then (true, setFirstVisibleRow t 0) else (false, t)

/-- JavaScript Math.round(a / b) for an integer numerator and natural
denominator: floor(a/b + 1/2), i.e. ties round toward positive infinity.
For b = 0 the JS value is non-finite and is never used by resizeColumn (it can
only arise after the last resizable column); this model returns 0 there. -/
def jsRound (a : Int) (b : Nat) : Int :=
  Int.fdiv (2 * a + b) (2 * b)

/-- TableUtils.isVariableWidth: a CSS width is flexible when it is empty,
"auto" or a percentage. -/
def isVariableWidth (w : ColWidth) : Bool :=
  match w with
  | ColWidth.px _ => false
  | ColWidth.flex => true

/-- TableUtils.isFixedColumn: whether the column index lies in the fixed
(left-pinned) column region. -/
def isFixedColumn (t : Table) (iColIdx : Int) : Bool :=
  decide (iColIdx < (t.fixedColumnCount : Int))

/-- TableUtils.getColumnWidth: width of a column in pixels. none when the
index is out of bounds; for a flexible width, the measured offsetWidth of the
rendered column element (0 when invisible or not rendered); for a fixed width
its pixel value (`_CSSSizeToPixel`). -/
def getColumnWidth (t : Table) (iColumnIndex : Int) : Option Nat :=
  if iColumnIndex < 0 then none
  else
    match t.columns.get? iColumnIndex.toNat with
    | Option.none => none
    | Option.some col =>
      match col.width with
      | ColWidth.flex =>
        if col.visible then some (col.domWidth.getD 0) else some 0
      | ColWidth.px n => some n

/-- Pointwise update of the column at index j (identity when out of range). -/
def updateColumn (cols : List Column) (j : Nat) (f : Column → Column) : List Column :=
  match cols, j with
  | [], _ => []
  | c :: rest, 0 => f c :: rest
  | c :: rest, Nat.succ j' => c :: updateColumn rest j' f

/-- Set the width of column j to a fixed pixel width (Column.setWidth with the
value iNewWidth + "px"). -/
def setColWidthPx (t : Table) (j : Nat) (n : Nat) : Table :=
  { t with columns := updateColumn t.columns j (fun c => { c with width := ColWidth.px n }) }

/-- The aggregation indices of the visible columns of `cols`, where the first
element of `cols` has index `j0`. -/
def visibleIdxFrom : List Column → Nat → List Nat
  | [], _ => []
  | c :: rest, j0 =>
    if c.visible then j0 :: visibleIdxFrom rest (j0 + 1)
    else visibleIdxFrom rest (j0 + 1)

/-- The minimum-width pinning pass of resizeColumn: for every visible column
( _getVisibleColumns().forEach ) that is outside the resizable set, has a
flexible width and — provided the table has a DOM reference — a rendered th
element, `_minWidth` is set to the max of that element's offsetWidth and the
global minimum column width. Only `minWidthPin` is written. -/
def pinCols (hasDom : Bool) (minW : Nat) (resizables : List Nat) :
    List Column → Nat → List Column
  | [], _ => []
  | c :: rest, j =>
    let c' :=
      if c.visible && hasDom && !(resizables.contains j) && isVariableWidth c.width then
        match c.domWidth with
        | Option.some dw => { c with minWidthPin := some (Nat.max dw minW) }
        | Option.none => c
      else c
    c' :: pinCols hasDom minW resizables rest (j + 1)

/-- The outcome of resizeColumn: its boolean return value, the table state
after the call, and the list of (column aggregation index, new width) pairs
for which a ColumnResize notification was fired. -/
structure ResizeOutcome where
  performed : Bool
  table : Table
  events : List (Nat × Nat)
  deriving DecidableEq

/-- The per-column loop of resizeColumn over the resizable columns: compute
the column's new width from the shared pixel delta, clamp it to the global
minimum column width, redistribute the remaining delta over the not yet
processed columns when the clamp reduced the change, and — when the width
changes — fire the cancelable ColumnResize notification and apply the width
only if the notification was not canceled. -/
def resizeLoop (minW : Nat) (fireEvent : Bool) (fire : Nat → Nat → Bool) :
    List Nat → Int → Int → Table → List (Nat × Nat) → Bool → ResizeOutcome
  | [], _, _, t, evs, performed => ⟨performed, t, evs⟩
  | j :: rest, pixelDelta, sharedDelta, t, evs, performed =>
    let w : Int := ((getColumnWidth t j).getD 0 : Nat)
    let newW0 : Int := w + sharedDelta
    let newW : Int := if newW0 < (minW : Int) then (minW : Int) else newW0
    let change : Int := newW - w
    let pd : Int :=
      if change.natAbs < sharedDelta.natAbs then pixelDelta - change else pixelDelta
    let sd : Int :=
      if change.natAbs < sharedDelta.natAbs then jsRound (pixelDelta - change) rest.length
      else sharedDelta
    if change = 0 then resizeLoop minW fireEvent fire rest pd sd t evs performed
    else
      let evs' := if fireEvent then evs ++ [(j, newW.toNat)] else evs
      let exec := if fireEvent then fire j newW.toNat else true
      if exec then
        resizeLoop minW fireEvent fire rest pd sd (setColWidthPx t j newW.toNat) evs' true
      else resizeLoop minW fireEvent fire rest pd sd t evs' performed

/-- TableUtils.resizeColumn: resize one or more visible columns to the given
pixel width. Validates the arguments and the start column, collects up to
`iColumnSpan` visible columns from the start index, filters the resizable
ones, sums the current pixel widths of the whole visible span, splits the
delta to the target width evenly (JS Math.round) over the resizable columns,
pins minimum widths of the other flexible visible columns when the start
column is not fixed, and runs the resize loop. `fire` is the ColumnResize
event: it returns false when a handler calls preventDefault(). -/
def resizeColumn (t : Table) (iColumnIndex : Int) (iWidth : Int)
    (bFireEvent : Option Bool) (iColumnSpan : Option Int)
    (fire : Nat → Nat → Bool) : ResizeOutcome :=
  if iColumnIndex < 0 ∨ iWidth ≤ 0 then ⟨false, t, []⟩
  else
    let span : Int :=
      match iColumnSpan with
      | Option.none => 1
      | Option.some s => if s ≤ 0 then 1 else s
    let fireEvent : Bool := bFireEvent.getD true
    let start : Nat := iColumnIndex.toNat
    match t.columns.get? start with
    | Option.none => ⟨false, t, []⟩
    | Option.some c0 =>
      if !c0.visible then ⟨false, t, []⟩
      else
        let visIdx : List Nat := (visibleIdxFrom (t.columns.drop start) start).take span.toNat
        let resizables : List Nat :=
          visIdx.filter (fun j => ((t.columns.get? j).map Column.resizable).getD false)
        if resizables.isEmpty then ⟨false, t, []⟩
        else
          let spanWidth : Int :=
            visIdx.foldl (fun acc j => acc + (((getColumnWidth t j).getD 0 : Nat) : Int)) 0
          let pixelDelta : Int := iWidth - spanWidth
          let sharedDelta : Int := jsRound pixelDelta resizables.length
          let t1 : Table :=
            if !(isFixedColumn t iColumnIndex) then
              { t with columns := pinCols t.hasDomRef t.minColWidth resizables t.columns 0 }
            else t
          resizeLoop t.minColWidth fireEvent fire resizables pixelDelta sharedDelta t1 [] false

/-- The classified table cell that openContextMenu resolves the passed element
to (TableUtils.getCell + getCellInfo). A column header carries the
data-sap-ui-colindex of its cell; a data cell carries the rendered row index
and column index decoded from the cell's DOM id. `none` at the call site
stands for a null element or an element outside any table cell. -/
inductive TargetCell where
  | columnHeader (colIndex : Nat)
  | dataCell (rowIndex : Nat) (colIndex : Nat)
  | rowHeader
  | colRowHeader
  deriving DecidableEq

/-- TableUtils.removeColumnHeaderCellMenu: if the column header holds a cell
menu overlay, unhide the header cell and remove the overlay. No-op otherwise. -/
def removeColumnHeaderCellMenu (t : Table) (iColumnIndex : Int) : Table :=
  if iColumnIndex < 0 then t
  else
    match t.columns.get? iColumnIndex.toNat with
    | Option.none => t
    | Option.some col =>
      if col.overlay.isSome then
        let cols := updateColumn t.columns iColumnIndex.toNat (fun c => { c with overlay := none })
        { t with columns := cols }
      else t

/-- TableUtils.applyColumnHeaderCellMenu: on a visible column that is
resizable or has menu items, hide the header cell and install the two-button
overlay (menu button present iff `_menuHasItems`), unless an overlay already
exists. The focusout auto-removal listener is a DOM event binding outside the
modelled state. -/
def applyColumnHeaderCellMenu (t : Table) (iColumnIndex : Int) : Table :=
  if iColumnIndex < 0 then t
  else
    match t.columns.get? iColumnIndex.toNat with
    | Option.none => t
    | Option.some col =>
      if col.visible && (col.resizable || col.menuHasItems) then
        if col.overlay.isSome then t
        else
          let cols := updateColumn t.columns iColumnIndex.toNat
            (fun c => { c with overlay := some c.menuHasItems })
          { t with columns := cols }
      else t

/-- TableUtils.closeColumnContextMenu: close the column's menu
(Column.getMenu().close(); closing an already closed menu is a no-op, so this
is plain clearing of the open flag). -/
def closeColumnContextMenu (t : Table) (iColumnIndex : Int) : Table :=
  if iColumnIndex < 0 then t
  else
    match t.columns.get? iColumnIndex.toNat with
    | Option.none => t
    | Option.some _ =>
      let cols := updateColumn t.columns iColumnIndex.toNat (fun c => { c with menuOpen := false })
      { t with columns := cols }

/-- TableUtils.openColumnContextMenu: on a valid visible column, close the
context menus of all other columns, then open this column's menu
(Column._openMenu; Column.js is not part of the snapshot — opening is
modelled from the spec: "open that column's menu, closing all other column
menus first"). The hover flag only affects menu rendering. -/
def openColumnContextMenu (t : Table) (iColumnIndex : Int)
    (_bHoverFirstMenuItem : Option Bool) : Table :=
  if iColumnIndex < 0 then t
  else
    match t.columns.get? iColumnIndex.toNat with
    | Option.none => t
    | Option.some col =>
      if !col.visible then t
      else
        let t1 := (List.range t.columns.length).foldl
          (fun acc j => if j ≠ iColumnIndex.toNat then closeColumnContextMenu acc j else acc) t
        let cols := updateColumn t1.columns iColumnIndex.toNat (fun c => { c with menuOpen := true })
        { t1 with columns := cols }

/-- TableUtils.closeDataCellContextMenu: close the singleton data cell context
menu if it exists and is open. -/
def closeDataCellContextMenu (t : Table) : Table :=
  if t.cellMenuCreated && t.cellMenuOpenAt.isSome then { t with cellMenuOpenAt := none }
  else t

/-- TableUtils.openDataCellContextMenu: on a valid visible column and a row
index below the non-empty visible row count, when cell filtering is enabled
and the column is filterable by menu, lazily construct the singleton cell
context menu, and — when the cell has a rendered parent data cell outside a
grouping row — open it below that cell, closing it first when it is open over
another cell. The filter menu item and its select-handler rebinding configure
the menu's action and are not part of the modelled state. -/
def openDataCellContextMenu (t : Table) (iColumnIndex : Int) (iRowIndex : Int)
    (_bHoverFirstMenuItem : Option Bool) : Table :=
  if iColumnIndex < 0 ∨ iRowIndex < 0 ∨ ((getNonEmptyVisibleRowCount t : Int) ≤ iRowIndex) then t
  else
    match t.columns.get? iColumnIndex.toNat with
    | Option.none => t
    | Option.some col =>
      if !col.visible then t
      else if t.enableCellFilter && col.filterable then
        let t1 : Table := { t with cellMenuCreated := true }
        let cell : Nat × Nat := (iColumnIndex.toNat, iRowIndex.toNat)
        if cell ∈ t.dataCellRendered then
          let t2 : Table :=
            if t1.cellMenuOpenAt.isSome ∧ t1.cellMenuOpenAt ≠ some cell then
              closeDataCellContextMenu t1
            else t1
          { t2 with cellMenuOpenAt := some cell }
        else t1
      else t

/-- TableUtils.openContextMenu: classify the target cell. For a column header,
on a desktop device or when the header cell already carries the overlay's
menu button, remove any overlay, fire the cancelable ColumnSelect
notification (`fireColumnSelect`) and open the column context menu unless the
notification was canceled; otherwise (touch device without overlay button)
install the header cell menu overlay. For a data cell, fire the cancelable
CellContextmenu notification (`fireCellContextmenu`, abstracted over the
rendered row and column index; the real event additionally carries the
absolute row index, ids and the binding context) and open the data cell
context menu unless canceled. Row header and corner cells do nothing. -/
def openContextMenu (t? : Option Table) (target : Option TargetCell)
    (bHoverFirstMenuItem : Option Bool) (bFireEvent : Option Bool) (desktop : Bool)
    (fireColumnSelect : Nat → Bool) (fireCellContextmenu : Nat → Nat → Bool) :
    Option Table :=
  match t? with
  | Option.none => none
  | Option.some t =>
    match target with
    | Option.none => some t
    | Option.some tc =>
      let fe : Bool := bFireEvent.getD true
      match tc with
      | TargetCell.columnHeader i =>
        let cellHasMenuButton : Bool :=
          ((t.columns.get? i).map (fun c => c.overlay == some true)).getD false
        if desktop || cellHasMenuButton then
          let t1 := removeColumnHeaderCellMenu t i
          let exec : Bool := if fe then fireColumnSelect i else true
          if exec then some (openColumnContextMenu t1 i bHoverFirstMenuItem) else some t1
        else some (applyColumnHeaderCellMenu t i)
      | TargetCell.dataCell rowIdx colIdx =>
        let exec : Bool := if fe then fireCellContextmenu rowIdx colIdx else true
        if exec then some (openDataCellContextMenu t colIdx rowIdx bHoverFirstMenuItem)
        else some t
      | TargetCell.rowHeader => some t
      | TargetCell.colRowHeader => some t

/-- Modelled from the spec: the core ResizeHandler service (§6 "resize-
observation registration/deregistration"; sap/ui/core/ResizeHandler is not
part of the snapshot). Handles are allocated with fresh identifiers; `live`
is the set of currently registered (not yet deregistered) handles. Handle
identifiers are naturals; like the service's string identifiers they are
always truthy. -/
structure RHEnv where
  nextId : Nat
  live : List Nat
  deriving DecidableEq

/-- ResizeHandler.register: allocate a fresh live handle. -/
def rhRegister (env : RHEnv) : Nat × RHEnv :=
  (env.nextId, ⟨env.nextId + 1, env.nextId :: env.live⟩)

/-- ResizeHandler.deregister: the handle stops being live. -/
def rhDeregister (env : RHEnv) (id : Nat) : RHEnv :=
  ⟨env.nextId, env.live.erase id⟩

/-- Lookup in the `_mResizeHandlerIds` association list. `some none` is a key
whose stored value is undefined (a deregistered entry). -/
def alookup : List (String × Option Nat) → String → Option (Option Nat)
  | [], _ => none
  | (k', v') :: rest, k => if k' = k then some v' else alookup rest k

/-- Store a value under a key in the `_mResizeHandlerIds` association list,
replacing an existing entry for the key. -/
def aset : List (String × Option Nat) → String → Option Nat → List (String × Option Nat)
  | [], k, v => [(k, v)]
  | (k', v') :: rest, k, v =>
    if k' = k then (k, v) :: rest else (k', v') :: aset rest k v

/-- The vIdSuffix argument of deregisterResizeHandler: a single ID suffix, the
undefined argument (deregister everything), or an array of suffixes. -/
inductive DeregArg where
  | one (k : String)
  | all
  | list (ks : List String)
  deriving DecidableEq

/-- The per-key loop of deregisterResizeHandler: for each key whose stored
handle is truthy, deregister the handle with the ResizeHandler service and set
the map entry to undefined (the key stays in the map). -/
def deregKeys : List String → List (String × Option Nat) → RHEnv →
    List (String × Option Nat) × RHEnv
  | [], m, env => (m, env)
  | k :: ks, m, env =>
    match alookup m k with
    | Option.some (Option.some id) => deregKeys ks (aset m k none) (rhDeregister env id)
    | _ => deregKeys ks m env

/-- TableUtils.deregisterResizeHandler: no-op when no handler was registered
so far; otherwise deregister the named suffix, the given array of suffixes, or
— for the undefined argument — every key present in the map. -/
def deregisterResizeHandler (t : Table) (env : RHEnv) (arg : DeregArg) : Table × RHEnv :=
  match t.resizeHandlers with
  | Option.none => (t, env)
  | Option.some m =>
    let keys : List String :=
      match arg with
      | DeregArg.one k => [k]
      | DeregArg.all => m.map Prod.fst
      | DeregArg.list ks => ks
    let r := deregKeys keys m env
    ({ t with resizeHandlers := some r.1 }, r.2)

/-- TableUtils.registerResizeHandler: the sIdSuffix is a string by the type of
the argument; a non-function handler aborts with a logged error (first
result none, no state change). Otherwise any existing handler for the suffix
is deregistered first, the map is created when missing, and — when the DOM
element identified by the suffix (or its parent, for bRegisterParent; folded
into `domPresent`) exists — a fresh handle is registered and stored under the
suffix. Returns the stored handle (undefined when no DOM element was found). -/
def registerResizeHandler (t : Table) (env : RHEnv) (sIdSuffix : String)
    (handlerIsFunction : Bool) (domPresent : Bool) : Option Nat × Table × RHEnv :=
  if !handlerIsFunction then (none, t, env)
  else
    let r := deregisterResizeHandler t env (DeregArg.one sIdSuffix)
    let m : List (String × Option Nat) := r.1.resizeHandlers.getD []
    if domPresent then
      let reg := rhRegister r.2
      (some reg.1,
        { r.1 with resizeHandlers := some (aset m sIdSuffix (some reg.1)) }, reg.2)
    else
      ((alookup m sIdSuffix).join, { r.1 with resizeHandlers := some m }, r.2)

/-- One call against the resize handler registration map: a register call
(with whether the handler argument is a function and whether the DOM element
resolves) or a deregister call. -/
inductive RHOp where
  | reg (k : String) (handlerIsFunction : Bool) (domPresent : Bool)
  | dereg (arg : DeregArg)

/-- The system state for the registration map claims: the table, the
ResizeHandler service, and the ghost history `tags` associating every handle
ever created by registerResizeHandler with the ID suffix it was registered
under. -/
structure RHSys where
  table : Table
  env : RHEnv
  tags : List (Nat × String)

/-- Execute one register/deregister call. registerResizeHandler returns a
fresh handle exactly when it registered one; that handle is recorded in the
ghost history under its key. -/
def rhStep (s : RHSys) : RHOp → RHSys
  | RHOp.reg k hf dom =>
    let r := registerResizeHandler s.table s.env k hf dom
    { table := r.2.1, env := r.2.2,
      tags :=
        match r.1 with
        | Option.some id => (id, k) :: s.tags
        | Option.none => s.tags }
  | RHOp.dereg a =>
    let r := deregisterResizeHandler s.table s.env a
    { table := r.1, env := r.2, tags := s.tags }

/-- The registration map invariant of the spec: no key ever maps to two live
handles simultaneously — any two live handles registered under the same ID
suffix are equal. -/
def atMostOneLivePerKey (s : RHSys) : Prop :=
  ∀ k id1 id2, (id1, k) ∈ s.tags → (id2, k) ∈ s.tags →
    id1 ∈ s.env.live → id2 ∈ s.env.live → id1 = id2

/-- Widths after a resize are sound with respect to the state `t0` before it:
every column either still has its old width, or carries an applied pixel
width of at least the global minimum column width. -/
def widthsOk (t0 r : Table) : Prop :=
  ∀ j : Nat, ((r.columns[j]?).map Column.width = (t0.columns[j]?).map Column.width)
    ∨ ∃ n, ((r.columns[j]?).map Column.width = some (ColWidth.px n)) ∧ t0.minColWidth ≤ n

/-- The inductive invariant of the registration map: live handles are
distinct and below the allocation counter, every recorded handle is below the
counter, and every live handle recorded under a key is the value the map
stores for that key. -/
def rhInv (s : RHSys) : Prop :=
  s.env.live.Nodup
    ∧ (∀ id ∈ s.env.live, id < s.env.nextId)
    ∧ (∀ p ∈ s.tags, p.1 < s.env.nextId)
    ∧ (∀ id k, (id, k) ∈ s.tags → id ∈ s.env.live →
        ∃ m, s.table.resizeHandlers = some m ∧ alookup m k = some (some id))

/-- A default column for concrete instances: visible, resizable, fixed width
of 100 pixels. -/
def baseColumn : Column :=
  { visible := true, resizable := true, width := ColWidth.px 100, domWidth := none,
    minWidthPin := none, menuHasItems := false, menuOpen := false, overlay := none,
    filterable := false }

/-- A default table for concrete instances: two 100px resizable columns, 10
bound rows, 5 visible rows, no fixed rows, multi selection, global minimum
column width 48. -/
def baseTable : Table :=
  { columns := [baseColumn, baseColumn], fixedColumnCount := 0, hasDomRef := false,
    minColWidth := 48, selectionMode := SelectionMode.MultiToggle,
    selectionBehavior := SelectionBehavior.RowSelector, groupMode := false,
    binding := some 10, selected := ∅, selectableRowCount := 10,
    sourceRowIndex := none, visibleRowCount := 5, fixedRowCount := 0,
    fixedBottomRowCount := 0, firstVisibleRow := 0, enableCellFilter := false,
    cellMenuCreated := false, cellMenuOpenAt := none, dataCellRendered := [],
    resizeHandlers := none }

/-- Helper: with a bound table, selection enabled and an in-range numeric
indicator, toggleRowSelection is exactly setSelectionState. -/
theorem toggleRowSelection_num_eq (t : Table) (n : Nat) (i : Int) (force : Option Bool)
    (hb : t.binding = some n) (hm : t.selectionMode ≠ SelectionMode.None)
    (h0 : 0 ≤ i) (hn : i < (n : Int)) :
    toggleRowSelection (some t) (some (RowIndicator.num i)) force
      = ((setSelectionState t i force).1, some (setSelectionState t i force).2) := by
  have hguard : ¬ (t.binding = none ∨ t.selectionMode = SelectionMode.None) := by
    simp [hb, hm]
  have hrange : ¬ (i < 0 ∨ ((getRowCount t : Int) ≤ i)) := by
    simp only [getRowCount, hb, Option.getD_some]
    omega
  simp only [toggleRowSelection]
  rw [if_neg hguard, if_neg hrange]

/-- Helper: the un-forced toggle on a selected index erases it. -/
theorem setSelectionState_mem (t : Table) (i : Int) (h0 : 0 ≤ i)
    (hmem : i.toNat ∈ t.selected) :
    setSelectionState t i none
      = (true, { t with selected := t.selected.erase i.toNat, sourceRowIndex := none }) := by
  have hsel : isIndexSelected { t with sourceRowIndex := some i } i = true := by
    simp [isIndexSelected, h0, hmem]
  simp [setSelectionState, hsel]

/-- Helper: the un-forced toggle on an unselected index inserts it. -/
theorem setSelectionState_notmem (t : Table) (i : Int) (hmem : i.toNat ∉ t.selected) :
    setSelectionState t i none
      = (true, { t with selected := insert i.toNat t.selected, sourceRowIndex := none }) := by
  have hsel : isIndexSelected { t with sourceRowIndex := some i } i = false := by
    simp [isIndexSelected, hmem]
  simp [setSelectionState, hsel]

/-- C4 — For every table with selection enabled and a bound row index i in
range, calling toggleRowSelection twice with no forced state restores the
selected index set that held before the first call. -/
theorem c4_double_toggle_restores_selection (t : Table) (n : Nat) (i : Int)
    (hb : t.binding = some n) (hm : t.selectionMode ≠ SelectionMode.None)
    (h0 : 0 ≤ i) (hn : i < (n : Int)) :
    Option.map Table.selected
        (toggleRowSelection (toggleRowSelection (some t) (some (RowIndicator.num i)) none).2
          (some (RowIndicator.num i)) none).2
      = some t.selected := by
  by_cases hsel : i.toNat ∈ t.selected
  · rw [toggleRowSelection_num_eq t n i none hb hm h0 hn, setSelectionState_mem t i h0 hsel]
    dsimp only
    rw [toggleRowSelection_num_eq { t with selected := t.selected.erase i.toNat, sourceRowIndex := none } n i none (by simpa using hb) (by simpa using hm) h0 hn]
    rw [setSelectionState_notmem _ i (by simp)]
    simp [Finset.insert_erase hsel]
  · rw [toggleRowSelection_num_eq t n i none hb hm h0 hn, setSelectionState_notmem t i hsel]
    dsimp only
    rw [toggleRowSelection_num_eq { t with selected := insert i.toNat t.selected, sourceRowIndex := none } n i none (by simpa using hb) (by simpa using hm) h0 hn]
    rw [setSelectionState_mem _ i h0 (by simp)]
    simp [Finset.erase_insert hsel]

/-- Witness for C4 at a concrete table: toggling row 3 twice on an empty
selection gives back the empty selection. -/
theorem c4_double_toggle_restores_selection_witness :
    baseTable.binding = some 10 ∧ baseTable.selectionMode ≠ SelectionMode.None
      ∧ (0 : Int) ≤ 3 ∧ (3 : Int) < (10 : Nat)
      ∧ Option.map Table.selected
          (toggleRowSelection
            (toggleRowSelection (some baseTable) (some (RowIndicator.num 3)) none).2
            (some (RowIndicator.num 3)) none).2
        = some baseTable.selected :=
  ⟨rfl, by decide, by decide, by decide,
    c4_double_toggle_restores_selection baseTable 10 3 rfl (by decide) (by decide) (by decide)⟩

/-- C5 — Whenever the table's selection mode is None, toggleRowSelection
returns false for every indicator and forced-state argument and leaves the
table unchanged, and areAllRowsSelected returns false. The hypothesis that
the selected set is empty is the reachable-state invariant of mode None: the
selection model (not part of the snapshot) holds no selection in that mode. -/
theorem c5_selection_mode_none (t : Table) (ind : Option RowIndicator) (force : Option Bool)
    (hm : t.selectionMode = SelectionMode.None) (hs : t.selected = ∅) :
    toggleRowSelection (some t) ind force = (false, some t)
      ∧ areAllRowsSelected (some t) = false := by
  constructor
  · match ind with
    | Option.none => rfl
    | Option.some ind' =>
      simp [toggleRowSelection, hm]
  · rcases Nat.eq_zero_or_pos t.selectableRowCount with h | h
    · simp [areAllRowsSelected, h]
    · simp [areAllRowsSelected, hs]
      omega

/-- Witness for C5 at a concrete table with selection mode None. -/
theorem c5_selection_mode_none_witness :
    ({ baseTable with selectionMode := SelectionMode.None } : Table).selectionMode
        = SelectionMode.None
      ∧ ({ baseTable with selectionMode := SelectionMode.None } : Table).selected = ∅
      ∧ toggleRowSelection (some { baseTable with selectionMode := SelectionMode.None })
          (some (RowIndicator.num 0)) (some true)
        = (false, some { baseTable with selectionMode := SelectionMode.None })
      ∧ areAllRowsSelected (some { baseTable with selectionMode := SelectionMode.None }) = false := by
  refine ⟨rfl, rfl, ?_⟩
  have h := c5_selection_mode_none { baseTable with selectionMode := SelectionMode.None }
    (some (RowIndicator.num 0)) (some true) rfl rfl
  exact h

/-- C6 — toggleRowSelection fails silently: whenever the table is null, no row
binding exists, selection is disabled, the indicator is null, a numeric
indicator is out of range, or a DOM indicator does not resolve to a
selectable data cell or row header cell, the call returns false and changes
nothing (the embedding is a total function, so no exception is possible). -/
theorem c6_invalid_inputs_fail_silently (t? : Option Table) (ind : Option RowIndicator)
    (force : Option Bool)
    (h : t? = none
      ∨ ∃ t, t? = some t
          ∧ (t.binding = none ∨ t.selectionMode = SelectionMode.None ∨ ind = none
            ∨ (∃ i, ind = some (RowIndicator.num i)
                ∧ (i < 0 ∨ ((getRowCount t : Int) ≤ i)))
            ∨ (∃ c, ind = some (RowIndicator.dom c) ∧ domCellSelectable t c = false))) :
    toggleRowSelection t? ind force = (false, t?) := by
  rcases h with h | ⟨t, rfl, h⟩
  · subst h; rfl
  rcases h with h | h | h | ⟨i, rfl, h⟩ | ⟨c, rfl, h⟩
  · match ind with
    | Option.none => rfl
    | Option.some ind' => simp [toggleRowSelection, h]
  · match ind with
    | Option.none => rfl
    | Option.some ind' => simp [toggleRowSelection, h]
  · subst h; rfl
  · by_cases hg : t.binding = none ∨ t.selectionMode = SelectionMode.None
    · simp [toggleRowSelection, hg]
    · simp [toggleRowSelection, hg, h]
  · by_cases hg : t.binding = none ∨ t.selectionMode = SelectionMode.None
    · simp [toggleRowSelection, hg]
    · simp [toggleRowSelection, hg, h]

/-- Witness for C6: a numeric indicator beyond the bound row count is
rejected without a state change. -/
theorem c6_invalid_inputs_fail_silently_witness :
    (some baseTable = (none : Option Table)
      ∨ ∃ t, some baseTable = some t
          ∧ (t.binding = none ∨ t.selectionMode = SelectionMode.None
            ∨ some (RowIndicator.num 25) = none
            ∨ (∃ i, some (RowIndicator.num 25) = some (RowIndicator.num i)
                ∧ (i < 0 ∨ ((getRowCount t : Int) ≤ i)))
            ∨ (∃ c, some (RowIndicator.num 25) = some (RowIndicator.dom c)
                ∧ domCellSelectable t c = false)))
      ∧ toggleRowSelection (some baseTable) (some (RowIndicator.num 25)) none
          = (false, some baseTable) := by
  have hx : some baseTable = (none : Option Table)
      ∨ ∃ t, some baseTable = some t
          ∧ (t.binding = none ∨ t.selectionMode = SelectionMode.None
            ∨ some (RowIndicator.num 25) = none
            ∨ (∃ i, some (RowIndicator.num 25) = some (RowIndicator.num i)
                ∧ (i < 0 ∨ ((getRowCount t : Int) ≤ i)))
            ∨ (∃ c, some (RowIndicator.num 25) = some (RowIndicator.dom c)
                ∧ domCellSelectable t c = false)) := by
    refine Or.inr ⟨baseTable, rfl, Or.inr (Or.inr (Or.inr (Or.inl ⟨25, rfl, ?_⟩)))⟩
    right; decide
  exact ⟨hx, c6_invalid_inputs_fail_silently (some baseTable)
    (some (RowIndicator.num 25)) none hx⟩

/-- C10 — A numeric row indicator bypasses the selection-behavior gating: for
a bound table with selection enabled and an in-range index, the toggle goes
straight to setSelectionState whatever the selection behavior and group mode
are, the un-forced toggle reports a change, and the cell-type/behavior checks
apply only to DOM indicators (a data cell indicator is refused whenever row
body selection is not allowed). -/
theorem c10_numeric_indicator_bypasses_behavior (t : Table) (n : Nat) (i : Int)
    (force : Option Bool) (b : SelectionBehavior) (g : Bool) (c : DomCell)
    (hb : t.binding = some n) (hm : t.selectionMode ≠ SelectionMode.None)
    (h0 : 0 ≤ i) (hn : i < (n : Int))
    (hc : c.cellType = some CellType.DATACELL)
    (hbeh : isRowSelectionAllowed t = false) :
    (toggleRowSelection (some t) (some (RowIndicator.num i)) force
        = ((setSelectionState t i force).1, some (setSelectionState t i force).2))
      ∧ (toggleRowSelection (some { t with selectionBehavior := b, groupMode := g })
            (some (RowIndicator.num i)) force
          = ((setSelectionState { t with selectionBehavior := b, groupMode := g } i force).1,
              some (setSelectionState { t with selectionBehavior := b, groupMode := g } i force).2))
      ∧ (toggleRowSelection (some { t with selectionBehavior := b, groupMode := g })
            (some (RowIndicator.num i)) force).1
          = (toggleRowSelection (some t) (some (RowIndicator.num i)) force).1
      ∧ toggleRowSelection (some t) (some (RowIndicator.dom c)) force = (false, some t) := by
  have hguard : ¬ (t.binding = none ∨ t.selectionMode = SelectionMode.None) := by
    simp [hb, hm]
  have hsel : domCellSelectable t c = false := by
    simp [domCellSelectable, hc, hbeh]
  refine ⟨toggleRowSelection_num_eq t n i force hb hm h0 hn,
    toggleRowSelection_num_eq _ n i force (by simpa using hb) (by simpa using hm) h0 hn,
    ?_, ?_⟩
  · rw [toggleRowSelection_num_eq t n i force hb hm h0 hn,
      toggleRowSelection_num_eq _ n i force (by simpa using hb) (by simpa using hm) h0 hn]
    simp only [setSelectionState, isIndexSelected]
    by_cases h1 : (0 ≤ i ∧ i.toNat ∈ t.selected) <;> by_cases h2 : force = some true <;>
      by_cases h3 : force = some false <;> simp [h1, h2, h3]
  · simp only [toggleRowSelection]
    rw [if_neg hguard, if_neg (by simp [hsel])]

/-- Witness for C10: mode Single with behavior RowSelector disallows row body
selection, yet the numeric toggle is applied. -/
theorem c10_numeric_indicator_bypasses_behavior_witness :
    (let t := { baseTable with selectionMode := SelectionMode.Single };
    t.binding = some 10 ∧ t.selectionMode ≠ SelectionMode.None
      ∧ (0 : Int) ≤ 2 ∧ (2 : Int) < (10 : Nat)
      ∧ (⟨some CellType.DATACELL, false, 2⟩ : DomCell).cellType = some CellType.DATACELL
      ∧ isRowSelectionAllowed t = false
      ∧ (toggleRowSelection (some t) (some (RowIndicator.num 2)) none
          = ((setSelectionState t 2 none).1, some (setSelectionState t 2 none).2))
      ∧ toggleRowSelection (some t) (some (RowIndicator.dom ⟨some CellType.DATACELL, false, 2⟩))
          none = (false, some t)) := by
  refine ⟨rfl, by decide, by decide, by decide, rfl, by decide, ?_, ?_⟩
  · exact (c10_numeric_indicator_bypasses_behavior
      { baseTable with selectionMode := SelectionMode.Single } 10 2 none
      SelectionBehavior.RowSelector false ⟨some CellType.DATACELL, false, 2⟩
      rfl (by decide) (by decide) (by decide) rfl (by decide)).1
  · exact (c10_numeric_indicator_bypasses_behavior
      { baseTable with selectionMode := SelectionMode.Single } 10 2 none
      SelectionBehavior.RowSelector false ⟨some CellType.DATACELL, false, 2⟩
      rfl (by decide) (by decide) (by decide) rfl (by decide)).2.2.2

/-- C3 counterexample — the claim quantifies over any fixed top/bottom row
counts, but with fixedRowCount = 6 and visibleRowCount = 5 the page size
`visibleRowCount - fixedRowCount - fixedBottomRowCount` is negative and a
page-down from the sanitized cursor 0 sets the cursor to -1, outside
[0, totalRows - visibleRowCount]; moreover with 3 data rows and 5 visible
rows the interval [0, 3 - 5] contains no cursor at all, so even the untouched
cursor 0 violates the claimed interval. -/
theorem c3_counterexample :
    (0 ≤ ({ baseTable with fixedRowCount := 6 } : Table).firstVisibleRow
      ∧ ({ baseTable with fixedRowCount := 6 } : Table).firstVisibleRow
          ≤ max 0 ((getRowCount { baseTable with fixedRowCount := 6 } : Int)
              - ({ baseTable with fixedRowCount := 6 } : Table).visibleRowCount)
      ∧ (scroll { baseTable with fixedRowCount := 6 } true true).2.firstVisibleRow = -1
      ∧ ¬ (0 ≤ (scroll { baseTable with fixedRowCount := 6 } true true).2.firstVisibleRow))
    ∧ (0 ≤ ({ baseTable with binding := some 3 } : Table).firstVisibleRow
      ∧ ({ baseTable with binding := some 3 } : Table).firstVisibleRow
          ≤ max 0 ((getRowCount { baseTable with binding := some 3 } : Int)
              - ({ baseTable with binding := some 3 } : Table).visibleRowCount)
      ∧ ¬ ((scroll { baseTable with binding := some 3 } true false).2.firstVisibleRow
            ≤ (getRowCount { baseTable with binding := some 3 } : Int)
              - ({ baseTable with binding := some 3 } : Table).visibleRowCount)) := by
  decide

/-- C3 amended — provided the fixed top and bottom row counts do not exceed
the visible row count (so the page size is non-negative), a scroll step from a
sanitized cursor keeps the cursor inside [0, max(0, totalRows -
visibleRowCount)]. -/
theorem c3_amended_scroll_stays_in_bounds (t : Table) (bDown bPage : Bool)
    (hfix : t.fixedRowCount + t.fixedBottomRowCount ≤ t.visibleRowCount)
    (h0 : 0 ≤ t.firstVisibleRow)
    (h1 : t.firstVisibleRow ≤ max 0 ((getRowCount t : Int) - t.visibleRowCount)) :
    0 ≤ (scroll t bDown bPage).2.firstVisibleRow
      ∧ (scroll t bDown bPage).2.firstVisibleRow
          ≤ max 0 ((getRowCount t : Int) - t.visibleRowCount) := by
  simp only [scroll, setFirstVisibleRow]
  rcases bDown with _ | _ <;> rcases bPage with _ | _ <;>
    simp only [Bool.false_eq_true, if_true, if_false, reduceIte] <;> split <;>
    simp_all <;> omega

/-- Witness for the amended C3 at a concrete sane table: 10 rows, 5 visible,
no fixed rows, page-down from cursor 0. -/
theorem c3_amended_scroll_stays_in_bounds_witness :
    (baseTable.fixedRowCount + baseTable.fixedBottomRowCount ≤ baseTable.visibleRowCount
      ∧ 0 ≤ baseTable.firstVisibleRow
      ∧ baseTable.firstVisibleRow ≤ max 0 ((getRowCount baseTable : Int) - baseTable.visibleRowCount))
    ∧ (0 ≤ (scroll baseTable true true).2.firstVisibleRow
      ∧ (scroll baseTable true true).2.firstVisibleRow
          ≤ max 0 ((getRowCount baseTable : Int) - baseTable.visibleRowCount)) :=
  ⟨⟨by decide, by decide, by decide⟩,
    c3_amended_scroll_stays_in_bounds baseTable true true (by decide) (by decide) (by decide)⟩

/-- C8 — scrollMax with toEnd jumps the sanitized cursor to
totalRows - nonEmptyVisibleRowCount, with toEnd = false to 0, and in both
directions returns true exactly when the cursor changed. -/
theorem c8_scroll_max (t : Table)
    (h0 : 0 ≤ t.firstVisibleRow)
    (h1 : t.firstVisibleRow ≤ max 0 ((getRowCount t : Int) - t.visibleRowCount)) :
    ((scrollMax t true).2.firstVisibleRow
        = (getRowCount t : Int) - getNonEmptyVisibleRowCount t)
      ∧ ((scrollMax t true).1 = true
          ↔ t.firstVisibleRow ≠ (getRowCount t : Int) - getNonEmptyVisibleRowCount t)
      ∧ ((scrollMax t false).2.firstVisibleRow = 0)
      ∧ ((scrollMax t false).1 = true ↔ t.firstVisibleRow ≠ 0) := by
  have hne : (getNonEmptyVisibleRowCount t : Int)
      = min (t.visibleRowCount : Int) (getRowCount t : Int) := by
    simp [getNonEmptyVisibleRowCount]
  refine ⟨?_, ?_, ?_, ?_⟩ <;>
    simp only [scrollMax, setFirstVisibleRow, hne, eq_self_iff_true, Bool.false_eq_true,
      if_true, if_false] <;>
    split <;> simp <;> omega

/-- Witness for C8 at a concrete table: cursor 2 of 10 rows with 5 visible
rows jumps to 5 going down and to 0 going up, both reporting a change. -/
theorem c8_scroll_max_witness :
    (0 ≤ ({ baseTable with firstVisibleRow := 2 } : Table).firstVisibleRow
      ∧ ({ baseTable with firstVisibleRow := 2 } : Table).firstVisibleRow
          ≤ max 0 ((getRowCount { baseTable with firstVisibleRow := 2 } : Int)
              - ({ baseTable with firstVisibleRow := 2 } : Table).visibleRowCount))
    ∧ ((scrollMax { baseTable with firstVisibleRow := 2 } true).2.firstVisibleRow
        = (getRowCount { baseTable with firstVisibleRow := 2 } : Int)
          - getNonEmptyVisibleRowCount { baseTable with firstVisibleRow := 2 })
    ∧ ((scrollMax { baseTable with firstVisibleRow := 2 } false).2.firstVisibleRow = 0) := by
  have h := c8_scroll_max { baseTable with firstVisibleRow := 2 } (by decide) (by decide)
  exact ⟨⟨by decide, by decide⟩, h.1, h.2.2.1⟩

/-- Helper: lookup after a pointwise column update. -/
theorem updateColumn_get? (cols : List Column) (j : Nat) (f : Column → Column) (j' : Nat) :
    (updateColumn cols j f)[j']?
      = if j' = j then (cols[j]?).map f else cols[j']? := by
  induction cols generalizing j j' with
  | nil => simp [updateColumn]
  | cons c rest ih =>
    match j, j' with
    | 0, 0 => simp [updateColumn]
    | 0, Nat.succ k => simp [updateColumn]
    | Nat.succ jn, 0 => simp [updateColumn]
    | Nat.succ jn, Nat.succ k => simpa [updateColumn] using ih jn k

/-- Helper: the minimum-width pinning pass never changes a column's width. -/
theorem pinCols_width (hasDom : Bool) (minW : Nat) (rs : List Nat) :
    ∀ (cols : List Column) (j0 j : Nat),
      ((pinCols hasDom minW rs cols j0)[j]?).map Column.width
        = (cols[j]?).map Column.width := by
  intro cols
  induction cols with
  | nil => intro j0 j; rfl
  | cons c rest ih =>
    intro j0 j
    match j with
    | 0 =>
      simp only [pinCols, List.getElem?_cons_zero, Option.map_some']
      split
      · split <;> rfl
      · rfl
    | Nat.succ k =>
      simp only [pinCols, List.getElem?_cons_succ]
      exact ih (j0 + 1) k

/-- Helper: setting a column to a clamped pixel width preserves width
soundness. -/
theorem widthsOk_set (t0 r : Table) (h : widthsOk t0 r) (j n : Nat)
    (hn : t0.minColWidth ≤ n) : widthsOk t0 (setColWidthPx r j n) := by
  intro j'
  simp only [setColWidthPx, updateColumn_get?]
  by_cases hj : j' = j
  · subst hj
    rw [if_pos rfl]
    cases hc : r.columns[j']? with
    | none =>
      rcases h j' with h' | ⟨m, h', _⟩ <;> rw [hc] at h' <;> simp_all
    | some c => exact Or.inr ⟨n, by simp [hc], hn⟩
  · rw [if_neg hj]
    exact h j'

/-- Helper: the resize loop preserves width soundness — every width it applies
is clamped to the global minimum column width first. -/
theorem resizeLoop_widthsOk (t0 : Table) (fe : Bool) (fire : Nat → Nat → Bool) :
    ∀ (l : List Nat) (pd sd : Int) (r : Table) (evs : List (Nat × Nat)) (pf : Bool),
      widthsOk t0 r →
      widthsOk t0 (resizeLoop t0.minColWidth fe fire l pd sd r evs pf).table := by
  intro l
  induction l with
  | nil => intro pd sd r evs pf h; simpa [resizeLoop] using h
  | cons j rest ih =>
    intro pd sd r evs pf h
    simp only [resizeLoop]
    split_ifs
    all_goals
      first
      | exact ih _ _ _ _ _ h
      | (apply ih; apply widthsOk_set t0 r h; omega)

/-- C7 — resizeColumn never applies a width below the global minimum column
width: after any call, every column either keeps its previous width or holds
an applied pixel width of at least that minimum. -/
theorem c7_resize_respects_min_width (t : Table) (iColumnIndex iWidth : Int)
    (bFireEvent : Option Bool) (iColumnSpan : Option Int) (fire : Nat → Nat → Bool) :
    widthsOk t (resizeColumn t iColumnIndex iWidth bFireEvent iColumnSpan fire).table := by
  have hself : widthsOk t t := fun j => Or.inl rfl
  simp only [resizeColumn]
  split
  · exact hself
  · split
    · exact hself
    · split
      · exact hself
      · split
        · exact hself
        · apply resizeLoop_widthsOk
          split
          · intro j
            left
            exact pinCols_width t.hasDomRef t.minColWidth _ t.columns 0 j
          · exact hself

/-- C1 counterexample — two resizable visible columns at 100px each, span 2,
target width 201: the claim says the second column stays at 100px and exactly
one notification fires, but the engine applies the rounded shared delta
round(1/2) = 1 to every resizable column (the remainder is only redistributed
when the minimum-width clamp reduces a change), so the second column also
becomes 101px and two notifications fire. -/
theorem c1_counterexample :
    ((resizeColumn baseTable 0 201 none (some 2) (fun _ _ => true)).events.length = 2)
      ∧ (((resizeColumn baseTable 0 201 none (some 2) (fun _ _ => true)).table.columns[1]?).map
          Column.width = some (ColWidth.px 101))
      ∧ ((baseTable.columns[1]?).map Column.width = some (ColWidth.px 100))
      ∧ ¬ (((resizeColumn baseTable 0 201 none (some 2) (fun _ _ => true)).events.length = 1)
            ∧ ((resizeColumn baseTable 0 201 none (some 2)
                  (fun _ _ => true)).table.columns[1]?).map Column.width
                = some (ColWidth.px 100)) := by
  decide

/-- C1 amended — for the table with exactly two resizable visible columns at
100px each (span width 200px, global minimum column width 48 ≤ 100) and
target width 201, the shared delta round(1/2) = 1 is applied to each
resizable column: both columns end at 101px, the call returns true, and two
resize notifications fire, one per column, with width 101. -/
theorem c1_amended_shared_delta_to_each_column :
    resizeColumn baseTable 0 201 none (some 2) (fun _ _ => true)
      = ⟨true,
          { baseTable with columns :=
              [{ baseColumn with width := ColWidth.px 101 },
                { baseColumn with width := ColWidth.px 101 }] },
          [(0, 101), (1, 101)]⟩ := by
  decide

/-- Helper: the resize loop with the event enabled and every ColumnResize
notification canceled applies nothing: the table is returned unchanged and no
resize is reported. -/
theorem resizeLoop_canceled (minW : Nat) (fire : Nat → Nat → Bool)
    (hf : ∀ j w, fire j w = false) :
    ∀ (l : List Nat) (pd sd : Int) (r : Table) (evs : List (Nat × Nat)),
      (resizeLoop minW true fire l pd sd r evs false).performed = false
        ∧ (resizeLoop minW true fire l pd sd r evs false).table = r := by
  intro l
  induction l with
  | nil => intro pd sd r evs; exact ⟨rfl, rfl⟩
  | cons j rest ih =>
    intro pd sd r evs
    simp only [resizeLoop, eq_self_iff_true, if_true, hf, Bool.false_eq_true, if_false]
    split_ifs <;> exact ih _ _ _ _

/-- Helper: the minimum-width pinning pass preserves every column projection
that ignores the `_minWidth` pin. -/
theorem pinCols_map {α : Type} (g : Column → α)
    (hg : ∀ (c : Column) (m : Nat), g { c with minWidthPin := some m } = g c)
    (hasDom : Bool) (minW : Nat) (rs : List Nat) :
    ∀ (cols : List Column) (j0 : Nat),
      (pinCols hasDom minW rs cols j0).map g = cols.map g := by
  intro cols
  induction cols with
  | nil => intro j0; rfl
  | cons c rest ih =>
    intro j0
    simp only [pinCols, List.map_cons, ih (j0 + 1)]
    split
    · split
      · rw [hg]
      · rfl
    · rfl

/-- C2 counterexample — on a touch device whose column header carries the
cell-menu overlay with its menu button, a column context menu request whose
ColumnSelect notification is canceled still removes the overlay: the canceled
call is not free of side effects on menu state. -/
theorem c2_counterexample :
    (((({ baseTable with columns := [{ baseColumn with overlay := some true, menuHasItems := true }] } : Table).columns[0]?).map Column.overlay) = some (some true))
      ∧ ((openContextMenu
            (some { baseTable with columns := [{ baseColumn with overlay := some true, menuHasItems := true }] })
            (some (TargetCell.columnHeader 0)) none none false
            (fun _ => false) (fun _ _ => false)).map
            (fun u => (u.columns[0]?).map Column.overlay) = some (some none))
      ∧ openContextMenu
            (some { baseTable with columns := [{ baseColumn with overlay := some true, menuHasItems := true }] })
            (some (TargetCell.columnHeader 0)) none none false
            (fun _ => false) (fun _ _ => false)
          ≠ some { baseTable with columns := [{ baseColumn with overlay := some true, menuHasItems := true }] } := by
  decide

/-- C2 amended — a canceled notification prevents the operation's own effect:
a fully canceled resize mutates no column width, touches neither selection
nor menu state and returns false (only the `_minWidth` pins of flexible
columns may still be written); a canceled ColumnSelect opens no menu and
leaves the state exactly as after the (pre-notification) removal of an
existing header cell-menu overlay; a canceled CellContextmenu changes nothing
at all. -/
theorem c2_amended_cancel_prevents_effect (t : Table) (iCol iW : Int)
    (span : Option Int) (fireR : Nat → Nat → Bool) (fireS : Nat → Bool)
    (fireC : Nat → Nat → Bool) (i rowIdx colIdx : Nat) (hover : Option Bool)
    (hR : ∀ j w, fireR j w = false) (hS : ∀ j, fireS j = false)
    (hC : ∀ r c, fireC r c = false) :
    ((resizeColumn t iCol iW none span fireR).performed = false
      ∧ (resizeColumn t iCol iW none span fireR).table.columns.map Column.width
          = t.columns.map Column.width
      ∧ (resizeColumn t iCol iW none span fireR).table.columns.map Column.menuOpen
          = t.columns.map Column.menuOpen
      ∧ (resizeColumn t iCol iW none span fireR).table.columns.map Column.overlay
          = t.columns.map Column.overlay
      ∧ (resizeColumn t iCol iW none span fireR).table.selected = t.selected
      ∧ (resizeColumn t iCol iW none span fireR).table.cellMenuOpenAt = t.cellMenuOpenAt)
    ∧ (openContextMenu (some t) (some (TargetCell.columnHeader i)) hover none true
          fireS fireC = some (removeColumnHeaderCellMenu t i))
    ∧ (openContextMenu (some t) (some (TargetCell.dataCell rowIdx colIdx)) hover none
          false fireS fireC = some t) := by
  refine ⟨?_, ?_, ?_⟩
  · have hmain : ∀ (l : List Nat) (pd sd : Int) (r : Table) ,
        (resizeLoop t.minColWidth true fireR l pd sd r [] false).performed = false
          ∧ (resizeLoop t.minColWidth true fireR l pd sd r [] false).table = r :=
      fun l pd sd r => resizeLoop_canceled t.minColWidth fireR hR l pd sd r []
    simp only [resizeColumn, Option.getD_none]
    split
    · exact ⟨rfl, rfl, rfl, rfl, rfl, rfl⟩
    · split
      · exact ⟨rfl, rfl, rfl, rfl, rfl, rfl⟩
      · split
        · exact ⟨rfl, rfl, rfl, rfl, rfl, rfl⟩
        · split
          · exact ⟨rfl, rfl, rfl, rfl, rfl, rfl⟩
          · rcases hmain _ _ _ _ with ⟨hp, ht⟩
            rw [hp, ht]
            split
            · refine ⟨rfl, ?_, ?_, ?_, rfl, rfl⟩
              · exact pinCols_map Column.width (fun c m => rfl) t.hasDomRef t.minColWidth _ t.columns 0
              · exact pinCols_map Column.menuOpen (fun c m => rfl) t.hasDomRef t.minColWidth _ t.columns 0
              · exact pinCols_map Column.overlay (fun c m => rfl) t.hasDomRef t.minColWidth _ t.columns 0
            · exact ⟨rfl, rfl, rfl, rfl, rfl, rfl⟩
  · simp only [openContextMenu, Option.getD_none, Bool.true_or, if_true, hS,
      Bool.false_eq_true, if_false, eq_self_iff_true]
  · simp only [openContextMenu, Option.getD_none, hC, Bool.false_eq_true, if_false,
      eq_self_iff_true, if_true]

/-- Witness for the amended C2 at concrete inputs: all-canceling handlers on
the base table. -/
theorem c2_amended_cancel_prevents_effect_witness :
    ((∀ j w, (fun (_ : Nat) (_ : Nat) => false) j w = false)
      ∧ (∀ j, (fun (_ : Nat) => false) j = false)
      ∧ (∀ r c, (fun (_ : Nat) (_ : Nat) => false) r c = false))
    ∧ ((resizeColumn baseTable 0 201 none (some 2) (fun _ _ => false)).performed = false
      ∧ (resizeColumn baseTable 0 201 none (some 2) (fun _ _ => false)).table.columns.map
          Column.width = baseTable.columns.map Column.width)
    ∧ (openContextMenu (some baseTable) (some (TargetCell.columnHeader 0)) none none true
        (fun _ => false) (fun _ _ => false) = some (removeColumnHeaderCellMenu baseTable 0))
    ∧ (openContextMenu (some baseTable) (some (TargetCell.dataCell 1 0)) none none false
        (fun _ => false) (fun _ _ => false) = some baseTable) := by
  have h := c2_amended_cancel_prevents_effect baseTable 0 201 (some 2)
    (fun _ _ => false) (fun _ => false) (fun _ _ => false) 0 1 0 none
    (fun _ _ => rfl) (fun _ => rfl) (fun _ _ => rfl)
  exact ⟨⟨fun _ _ => rfl, fun _ => rfl, fun _ _ => rfl⟩, ⟨h.1.1, h.1.2.1⟩, h.2.1, h.2.2⟩

/-- Helper: looking up the key just stored. -/
theorem alookup_aset_self (m : List (String × Option Nat)) (k : String) (v : Option Nat) :
    alookup (aset m k v) k = some v := by
  induction m with
  | nil => simp [aset, alookup]
  | cons p rest ih =>
    obtain ⟨k', v'⟩ := p
    by_cases h : k' = k
    · simp [aset, alookup, h]
    · simp [aset, alookup, h, ih]

/-- Helper: storing under one key does not change the lookup of another. -/
theorem alookup_aset_ne (m : List (String × Option Nat)) (k k2 : String) (v : Option Nat)
    (h : k2 ≠ k) : alookup (aset m k v) k2 = alookup m k2 := by
  have hne : ¬ (k = k2) := fun hh => h hh.symm
  induction m with
  | nil => simp [aset, alookup, hne]
  | cons p rest ih =>
    obtain ⟨k', v'⟩ := p
    by_cases hk : k' = k
    · subst hk
      simp [aset, alookup, hne]
    · simp only [aset, if_neg hk, alookup]
      by_cases hk2 : k' = k2
      · simp [hk2]
      · simp [hk2, ih]

/-- Helper: the deregistration loop does not allocate handles. -/
theorem deregKeys_nextId :
    ∀ (ks : List String) (m : List (String × Option Nat)) (env : RHEnv),
      (deregKeys ks m env).2.nextId = env.nextId := by
  intro ks
  induction ks with
  | nil => intro m env; rfl
  | cons k0 ks ih =>
    intro m env
    rcases h : alookup m k0 with _ | ⟨_ | id0⟩ <;> simp only [deregKeys, h] <;> exact ih _ _

/-- Helper: the deregistration loop only removes handles from the live set. -/
theorem deregKeys_live_subset :
    ∀ (ks : List String) (m : List (String × Option Nat)) (env : RHEnv) (id : Nat),
      id ∈ (deregKeys ks m env).2.live → id ∈ env.live := by
  intro ks
  induction ks with
  | nil => intro m env id h; exact h
  | cons k0 ks ih =>
    intro m env id h
    rcases hx : alookup m k0 with _ | ⟨_ | id0⟩ <;> simp only [deregKeys, hx] at h
    · exact ih _ _ _ h
    · exact ih _ _ _ h
    · exact List.mem_of_mem_erase (ih _ _ _ h)

/-- Helper: the deregistration loop preserves distinctness of live handles. -/
theorem deregKeys_nodup :
    ∀ (ks : List String) (m : List (String × Option Nat)) (env : RHEnv),
      env.live.Nodup → (deregKeys ks m env).2.live.Nodup := by
  intro ks
  induction ks with
  | nil => intro m env h; exact h
  | cons k0 ks ih =>
    intro m env h
    rcases hx : alookup m k0 with _ | ⟨_ | id0⟩ <;> simp only [deregKeys, hx]
    · exact ih _ _ h
    · exact ih _ _ h
    · exact ih _ _ (h.erase id0)

/-- Helper: a handle that survives the deregistration loop keeps its map
entry. -/
theorem deregKeys_lookup :
    ∀ (ks : List String) (m : List (String × Option Nat)) (env : RHEnv),
      env.live.Nodup → ∀ (k : String) (id : Nat),
      alookup m k = some (some id) →
      id ∈ (deregKeys ks m env).2.live →
      alookup (deregKeys ks m env).1 k = some (some id) := by
  intro ks
  induction ks with
  | nil => intro m env _ k id hlook _; exact hlook
  | cons k0 ks ih =>
    intro m env hnd k id hlook hlive
    rcases hx : alookup m k0 with _ | ⟨_ | id0⟩ <;> simp only [deregKeys, hx] at hlive ⊢
    · exact ih _ _ hnd k id hlook hlive
    · exact ih _ _ hnd k id hlook hlive
    · by_cases hk : k0 = k
      · subst hk
        rw [hx] at hlook
        injection hlook with hlook
        injection hlook with hlook
        exfalso
        have hsub := deregKeys_live_subset ks (aset m k0 none) (rhDeregister env id0) id hlive
        have hmem := (List.Nodup.mem_erase_iff hnd).1 hsub
        exact hmem.1 (by omega)
      · have hlook' : alookup (aset m k0 none) k = some (some id) := by
          rw [alookup_aset_ne m k0 k none (fun hh => hk hh.symm)]
          exact hlook
        exact ih _ _ (hnd.erase id0) k id hlook' hlive

/-- Helper: after deregistering a single key, its map entry is never a live
handle value. -/
theorem deregKeys_one_lookup (k : String) (m : List (String × Option Nat)) (env : RHEnv)
    (id : Nat) : alookup (deregKeys [k] m env).1 k ≠ some (some id) := by
  rcases hx : alookup m k with _ | ⟨_ | id0⟩ <;> simp only [deregKeys, hx]
  · intro hc
    exact Option.noConfusion hc
  · intro hc
    injection hc with hc
    exact Option.noConfusion hc
  · intro hc
    rw [alookup_aset_self] at hc
    injection hc with hc
    exact Option.noConfusion hc

/-- Helper: after deregisterResizeHandler on a single key, the stored value
under that key is never a (truthy) handle. -/
theorem dereg_one_lookup (t : Table) (env : RHEnv) (k : String) (id : Nat) :
    alookup ((deregisterResizeHandler t env (DeregArg.one k)).1.resizeHandlers.getD []) k
      ≠ some (some id) := by
  cases hm : t.resizeHandlers with
  | none => simp [deregisterResizeHandler, hm, alookup]
  | some m =>
    simp only [deregisterResizeHandler, hm, Option.getD_some]
    exact deregKeys_one_lookup k m env id

/-- Helper: a deregister call preserves the invariant. -/
theorem rhInv_dereg (s : RHSys) (a : DeregArg) (h : rhInv s) :
    rhInv (rhStep s (RHOp.dereg a)) := by
  obtain ⟨hnd, hbound, htag, hmain⟩ := h
  simp only [rhStep, deregisterResizeHandler]
  cases hm : s.table.resizeHandlers with
  | none => exact ⟨hnd, hbound, htag, hmain⟩
  | some m =>
    refine ⟨deregKeys_nodup _ _ _ hnd, ?_, ?_, ?_⟩
    · intro id hid
      rw [deregKeys_nextId]
      exact hbound id (deregKeys_live_subset _ _ _ id hid)
    · intro p hp
      rw [deregKeys_nextId]
      exact htag p hp
    · intro id k hik hl
      have hl0 := deregKeys_live_subset _ _ _ id hl
      obtain ⟨m0, hm0, hlk⟩ := hmain id k hik hl0
      rw [hm] at hm0
      injection hm0 with hm0
      subst hm0
      exact ⟨_, rfl, deregKeys_lookup _ _ _ hnd k id hlk hl⟩

/-- Helper: a register call preserves the invariant. -/
theorem rhInv_reg (s : RHSys) (k : String) (hf dom : Bool) (h : rhInv s) :
    rhInv (rhStep s (RHOp.reg k hf dom)) := by
  cases hf with
  | false => exact h
  | true =>
    have hnd1 : (deregisterResizeHandler s.table s.env (DeregArg.one k)).2.live.Nodup :=
      (rhInv_dereg s (DeregArg.one k) h).1
    have hbound1 : ∀ id ∈ (deregisterResizeHandler s.table s.env (DeregArg.one k)).2.live,
        id < (deregisterResizeHandler s.table s.env (DeregArg.one k)).2.nextId :=
      (rhInv_dereg s (DeregArg.one k) h).2.1
    have htag1 : ∀ p ∈ s.tags,
        p.1 < (deregisterResizeHandler s.table s.env (DeregArg.one k)).2.nextId :=
      (rhInv_dereg s (DeregArg.one k) h).2.2.1
    have hmain1 : ∀ id k', (id, k') ∈ s.tags →
        id ∈ (deregisterResizeHandler s.table s.env (DeregArg.one k)).2.live →
        ∃ m, (deregisterResizeHandler s.table s.env (DeregArg.one k)).1.resizeHandlers = some m
          ∧ alookup m k' = some (some id) :=
      (rhInv_dereg s (DeregArg.one k) h).2.2.2
    cases dom with
    | true =>
      show rhInv
        ⟨{ (deregisterResizeHandler s.table s.env (DeregArg.one k)).1 with
            resizeHandlers := some (aset
              ((deregisterResizeHandler s.table s.env (DeregArg.one k)).1.resizeHandlers.getD [])
              k (some (deregisterResizeHandler s.table s.env (DeregArg.one k)).2.nextId)) },
          ⟨(deregisterResizeHandler s.table s.env (DeregArg.one k)).2.nextId + 1,
            (deregisterResizeHandler s.table s.env (DeregArg.one k)).2.nextId
              :: (deregisterResizeHandler s.table s.env (DeregArg.one k)).2.live⟩,
          ((deregisterResizeHandler s.table s.env (DeregArg.one k)).2.nextId, k) :: s.tags⟩
      refine ⟨?_, ?_, ?_, ?_⟩ <;> dsimp only
      · exact List.nodup_cons.mpr
          ⟨fun hmem => absurd (hbound1 _ hmem) (lt_irrefl _), hnd1⟩
      · intro id hid
        rcases List.mem_cons.1 hid with rfl | hid'
        · omega
        · have := hbound1 id hid'
          omega
      · intro p hp
        rcases List.mem_cons.1 hp with rfl | hp'
        · omega
        · have := htag1 p hp'
          omega
      · intro id k' hik hl
        rcases List.mem_cons.1 hik with heq | hin
        · have h1 : id = (deregisterResizeHandler s.table s.env (DeregArg.one k)).2.nextId :=
            congrArg Prod.fst heq
          have h2 : k' = k := congrArg Prod.snd heq
          subst h1
          subst h2
          exact ⟨_, rfl, alookup_aset_self _ _ _⟩
        · have hidlt := htag1 (id, k') hin
          have hidne : id ≠ (deregisterResizeHandler s.table s.env (DeregArg.one k)).2.nextId := by
            simpa using Nat.ne_of_lt hidlt
          have hl' : id ∈ (deregisterResizeHandler s.table s.env (DeregArg.one k)).2.live := by
            rcases List.mem_cons.1 hl with heq2 | hl'
            · exact absurd heq2 hidne
            · exact hl'
          obtain ⟨m0, hm0, hl0⟩ := hmain1 id k' hin hl'
          have hkne : k' ≠ k := by
            intro hkk
            subst hkk
            apply dereg_one_lookup s.table s.env k' id
            rw [hm0]
            simpa using hl0
          refine ⟨_, rfl, ?_⟩
          rw [hm0]
          simp only [Option.getD_some]
          rw [alookup_aset_ne m0 k k' _ hkne]
          exact hl0
    | false =>
      have hret : (registerResizeHandler s.table s.env k true false).1 = none := by
        simp only [registerResizeHandler, Bool.not_true, Bool.false_eq_true, if_false]
        rcases hx : alookup
            ((deregisterResizeHandler s.table s.env (DeregArg.one k)).1.resizeHandlers.getD [])
            k with _ | ⟨_ | id0⟩
        · simp [hx]
        · simp [hx]
        · exact absurd hx (dereg_one_lookup s.table s.env k id0)
      simp only [rhStep]
      rw [hret]
      refine ⟨hnd1, hbound1, htag1, ?_⟩
      intro id k' hik hl
      obtain ⟨m0, hm0, hl0⟩ := hmain1 id k' hik hl
      refine ⟨m0, ?_, hl0⟩
      show some ((deregisterResizeHandler s.table s.env (DeregArg.one k)).1.resizeHandlers.getD [])
        = some m0
      rw [hm0]
      rfl

/-- Helper: the invariant is preserved by any sequence of calls. -/
theorem rhInv_steps : ∀ (ops : List RHOp) (s : RHSys), rhInv s → rhInv (ops.foldl rhStep s) := by
  intro ops
  induction ops with
  | nil => intro s h; exact h
  | cons op ops ih =>
    intro s h
    simp only [List.foldl_cons]
    apply ih
    cases op with
    | reg k hf dom => exact rhInv_reg s k hf dom h
    | dereg a => exact rhInv_dereg s a h

/-- C9 — starting from a fresh table and ResizeHandler service, after every
sequence of register and deregister calls each ID-suffix key holds at most
one live handle: registering always supersedes (deregisters) the prior handle
stored under the key. -/
theorem c9_at_most_one_live_handle_per_key (t0 : Table) (ops : List RHOp) :
    atMostOneLivePerKey (ops.foldl rhStep ⟨t0, ⟨0, []⟩, []⟩) := by
  have hinv : rhInv (ops.foldl rhStep ⟨t0, ⟨0, []⟩, []⟩) := by
    apply rhInv_steps
    exact ⟨List.nodup_nil, fun id h => absurd h (List.not_mem_nil id),
      fun p h => absurd h (List.not_mem_nil p),
      fun id k hik _ => absurd hik (List.not_mem_nil _)⟩
  obtain ⟨-, -, -, hmain⟩ := hinv
  intro k id1 id2 h1 h2 hl1 hl2
  obtain ⟨m1, hm1, ha1⟩ := hmain id1 k h1 hl1
  obtain ⟨m2, hm2, ha2⟩ := hmain id2 k h2 hl2
  rw [hm1] at hm2
  injection hm2 with hm2
  subst hm2
  rw [ha1] at ha2
  injection ha2 with ha2
  injection ha2 with ha2

end TableUtilsSpec
